import Mathlib

/-!
Verification of the `lsr` directory-listing utility (`src/lib.rs`) against
its natural-language specification.

The filesystem is modelled abstractly: `FS` packages the effectful calls the
program makes (`fs::metadata`, `fs::read_dir`, `get_user_by_uid`,
`get_group_by_gid`).  Fallible calls return `Except String` where the
`String` is the rendered error message.  `find_files` and `format_output`
are direct translations of the Rust functions of the same names; `eprintln!`
output is modelled as an explicitly returned list of stderr lines.
-/

deriving instance DecidableEq for Except

namespace Lsr

/-- File type as observed by `Metadata::is_file` / `Path::is_dir`:
a regular file, a directory, or anything else (socket, fifo, ...). -/
inductive FileType where
  | file
  | dir
  | other
deriving DecidableEq, Repr

/-- Snapshot of `std::fs::Metadata` as used by the program: file type,
mode bits, hard-link count, uid, gid, byte size, and the result of
`Metadata::modified()` (which can itself fail), rendered down to the
local hour/minute pair the program prints. -/
structure Metadata where
  ftype : FileType
  mode : Nat
  nlink : Nat
  uid : Nat
  gid : Nat
  size : Nat
  modified : Except String (Nat × Nat)
deriving DecidableEq, Repr

/-- Models `Metadata::is_file`. -/
def Metadata.is_file (m : Metadata) : Bool :=
  m.ftype = FileType.file

/-- Models `Metadata::is_dir`. -/
def Metadata.is_dir (m : Metadata) : Bool :=
  m.ftype = FileType.dir

/-- One entry yielded by `fs::read_dir`: its bare file name
(`DirEntry::file_name`) and its full path (`DirEntry::path`). -/
structure DirEntry where
  name : String
  path : String
deriving DecidableEq, Repr

/-- The abstract filesystem and identity services the program calls.
`metadata p` models `fs::metadata(p)`; `readDir p` models `fs::read_dir(p)`,
whose outer `Except` is failure of the top-level directory read and whose
per-element `Except` is failure to read one child entry; `userName` /
`groupName` model `get_user_by_uid` / `get_group_by_gid`. -/
structure FS where
  metadata : String → Except String Metadata
  readDir : String → Except String (List (Except String DirEntry))
  userName : Nat → Option String
  groupName : Nat → Option String

/-- Models `entry.file_name().to_string_lossy().starts_with('.')`: whether
the file name's first character is `'.'`. -/
def starts_with_dot (s : String) : Bool :=
  match s.data with
  | [] => false
  | c :: _ => c = '.'

/-- The inner `for entry in fs::read_dir(path)?` loop of `find_files`:
walks the child entries, propagating a per-child read failure
(`let entry = entry?;`) and pushing the child's path onto `results` when
`show_hidden || !entry.file_name().to_string_lossy().starts_with('.')`. -/
def read_dir_loop (show_hidden : Bool) (results : List String) :
    List (Except String DirEntry) → Except String (List String)
  | [] => .ok results
  | .error e :: _ => .error e
  | .ok entry :: rest =>
    if show_hidden || !(starts_with_dot entry.name) then
      read_dir_loop show_hidden (results ++ [entry.path]) rest
    else
      read_dir_loop show_hidden results rest

/-- The body of `find_files`, looping over the requested paths with the
accumulated `results` vector.  Returns the lines written to stderr by
`eprintln!("{}: {}", path, e)` together with the function's
`MyResult<Vec<PathBuf>>` value. -/
def find_files_go (fs : FS) (show_hidden : Bool) :
    List String → List String → List String × Except String (List String)
  | results, [] => ([], .ok results)
  | results, path :: rest =>
    match fs.metadata path with
    | .error e =>
      let r := find_files_go fs show_hidden results rest
      ((path ++ ": " ++ e) :: r.1, r.2)
    | .ok m =>
      if m.is_file then
        find_files_go fs show_hidden (results ++ [path]) rest
      else
        match fs.readDir path with
        | .error e => ([], .error e)
        | .ok entries =>
          match read_dir_loop show_hidden results entries with
          | .error e => ([], .error e)
          | .ok results2 => find_files_go fs show_hidden results2 rest

/-- Models `find_files(paths, show_hidden)`: the first component is the sequence of
stderr diagnostics, the second the returned `MyResult<Vec<PathBuf>>`. -/
def find_files (fs : FS) (paths : List String) (show_hidden : Bool) :
    List String × Except String (List String) :=
  find_files_go fs show_hidden [] paths

/-- Modelled from the spec: the `Owner` enumeration of `src/owner.rs`
(the file itself is absent from the sources; only `lib.rs` uses it).
Spec §3: "an enumeration of exactly three variants — User, Group, Other". -/
inductive Owner where
  | User
  | Group
  | Other
deriving DecidableEq, Repr

/-- Modelled from the spec: `Owner::masks`, returning the class's
(read, write, execute) bit masks.  Spec §4.2: "User = bits 6–8,
Group = bits 3–5, Other = bits 0–2 (execute = bit 0 of each triplet,
write = bit 1, read = bit 2)".  The in-repo tests of `mk_triple`
(`mk_triple(0o751, Owner::User) == "rwx"`, etc.) agree with these values. -/
def Owner.masks : Owner → Nat × Nat × Nat
  | .User => (0o400, 0o200, 0o100)
  | .Group => (0o40, 0o20, 0o10)
  | .Other => (0o4, 0o2, 0o1)

/-- Models `mk_triple(mode, owner)`: three characters, `r`/`w`/`x` for each mask
bit set in `mode`, `-` otherwise. -/
def mk_triple (mode : Nat) (owner : Owner) : String :=
  let (read, write, execute) := owner.masks
  String.mk [
    if mode &&& read = 0 then '-' else 'r',
    if mode &&& write = 0 then '-' else 'w',
    if mode &&& execute = 0 then '-' else 'x']

/-- Models `format_mode(mode)`: the 9-character permission string, User triple then
Group triple then Other triple. -/
def format_mode (mode : Nat) : String :=
  mk_triple mode Owner.User ++ mk_triple mode Owner.Group ++ mk_triple mode Owner.Other

/-- Models `Path::is_dir()` as called inside `format_output`: a fresh metadata
query, `false` when the query fails. -/
def path_is_dir (fs : FS) (path : String) : Bool :=
  match fs.metadata path with
  | .ok m => m.is_dir
  | .error _ => false

/-- Zero-padded two-digit rendering used by the `%H:%M` time format. -/
def pad2 (n : Nat) : String :=
  if n < 10 then "0" ++ toString n else toString n

/-- The `%H:%M` rendering of `DateTime::<Local>::from(modified)`. -/
def format_hm (t : Nat × Nat) : String :=
  pad2 t.1 ++ ":" ++ pad2 t.2

/-- The loop body of `format_output` for one path: fetches metadata
(propagating failure), then builds the row's eight cells in the order they
are `with_cell`ed: file type, permissions, link count, user name, group
name, size, modified time, path. -/
def format_row (fs : FS) (path : String) : Except String (List String) := do
  let metadata ← fs.metadata path
  let file_type := if path_is_dir fs path then "d" else "-"
  let mode := format_mode metadata.mode
  let nlink := metadata.nlink
  let user_name := (fs.userName metadata.uid).getD (toString metadata.uid)
  let group_name := (fs.groupName metadata.gid).getD (toString metadata.gid)
  let size := metadata.size
  let modified ← metadata.modified
  pure [file_type, mode, toString nlink, user_name, group_name,
    toString size, format_hm modified, path]

/-- Models `format_output(paths)`: one row of cells per path, in order; the first
failing metadata or modified-time fetch aborts the whole operation with
that error (`let metadata = path.metadata()?; ... metadata.modified()?`). -/
def format_output (fs : FS) (paths : List String) :
    Except String (List (List String)) :=
  paths.mapM (format_row fs)

/-- Whether a result is the error case (used to state that an operation
fails and returns no value). -/
def is_error {α : Type} : Except String α → Bool
  | .error _ => true
  | .ok _ => false

/-! ### Concrete sample filesystems, mirroring the repository's `tests/inputs` -/

/-- Metadata of `tests/inputs/bustle.txt` as the repository's tests expect it:
regular file, mode `0o644`, 193 bytes. -/
def mBustle : Metadata :=
  { ftype := .file, mode := 0o644, nlink := 1, uid := 1000, gid := 1000,
    size := 193, modified := .ok (12, 34) }

/-- Metadata of the hidden regular file `tests/inputs/.hidden`. -/
def mHidden : Metadata :=
  { ftype := .file, mode := 0o600, nlink := 1, uid := 1000, gid := 1000,
    size := 10, modified := .ok (0, 0) }

/-- Metadata of the directory `tests/inputs`. -/
def mInputs : Metadata :=
  { ftype := .dir, mode := 0o755, nlink := 2, uid := 0, gid := 0,
    size := 4096, modified := .ok (9, 5) }

/-- The child entries of `tests/inputs`, in directory-read order. -/
def inputsChildren : List DirEntry :=
  [⟨".hidden", "tests/inputs/.hidden"⟩,
   ⟨"bustle.txt", "tests/inputs/bustle.txt"⟩,
   ⟨"dir", "tests/inputs/dir"⟩]

/-- A sample filesystem shaped like the repository's `tests/inputs` tree. -/
def fsEx : FS where
  metadata := fun p =>
    if p = "tests/inputs/bustle.txt" then .ok mBustle
    else if p = "tests/inputs/.hidden" then .ok mHidden
    else if p = "tests/inputs" then .ok mInputs
    else .error "No such file or directory (os error 2)"
  readDir := fun p =>
    if p = "tests/inputs" then .ok (inputsChildren.map .ok)
    else .error "Not a directory (os error 20)"
  userName := fun u => if u = 0 then some "root" else none
  groupName := fun g => if g = 0 then some "wheel" else none

/-- A filesystem whose directory `d` yields a per-child read error before a
readable child. -/
def fsChildErr : FS where
  metadata := fun p =>
    if p = "d" then .ok mInputs
    else .error "No such file or directory (os error 2)"
  readDir := fun p =>
    if p = "d" then .ok [.error "boom", .ok ⟨"a.txt", "d/a.txt"⟩]
    else .error "Not a directory (os error 20)"
  userName := fun _ => none
  groupName := fun _ => none

/-- A filesystem with a regular file whose modified-time fetch fails. -/
def fsBadTime : FS where
  metadata := fun p =>
    if p = "f.txt" then
      .ok { ftype := .file, mode := 0o644, nlink := 1, uid := 1000,
            gid := 1000, size := 7, modified := .error "clock error" }
    else .error "No such file or directory (os error 2)"
  readDir := fun _ => .error "Not a directory (os error 20)"
  userName := fun _ => none
  groupName := fun _ => none


/-- The bit mask associated with each of the nine character positions of a
rendered permission string, leftmost position first (the User, Group and
Other triples, read/write/execute within each). -/
def position_masks : List Nat :=
  [0o400, 0o200, 0o100, 0o40, 0o20, 0o10, 0o4, 0o2, 0o1]

/-- Re-derives mask membership from a rendered permission string: the sum of
the position masks at which the character is not the dash.  This is the
spec-side re-derivation used to state that permission decoding is
invertible on the low 9 bits. -/
def recover_mode (s : String) : Nat :=
  (List.zip s.data position_masks).foldl
    (fun acc ci => if ci.1 = '-' then acc else acc + ci.2) 0

/-- A filesystem with a directory whose own top-level read fails. -/
def fsLocked : FS where
  metadata := fun p =>
    if p = "locked" then .ok mInputs
    else .error "No such file or directory (os error 2)"
  readDir := fun _ => .error "Permission denied (os error 13)"
  userName := fun _ => none
  groupName := fun _ => none

/-! ### Helper lemmas -/

theorem read_dir_loop_acc (sh : Bool) (entries : List (Except String DirEntry)) :
    ∀ acc, read_dir_loop sh acc entries =
      (read_dir_loop sh [] entries).map (fun r => acc ++ r) := by
  induction entries with
  | nil => intro acc; simp [read_dir_loop, Except.map]
  | cons e rest ih =>
    intro acc
    match e with
    | .error err => simp [read_dir_loop, Except.map]
    | .ok entry =>
      cases hcond : (sh || !(starts_with_dot entry.name)) with
      | true =>
        simp only [read_dir_loop, hcond, if_true]
        rw [ih (acc ++ [entry.path]), ih ([] ++ [entry.path])]
        cases read_dir_loop sh [] rest <;> simp [Except.map]
      | false =>
        simp only [read_dir_loop, hcond, if_false]
        rw [ih acc, ih []]
        cases read_dir_loop sh [] rest <;> simp [Except.map]

theorem find_files_go_acc (fs : FS) (sh : Bool) (paths : List String) :
    ∀ acc, find_files_go fs sh acc paths =
      ((find_files_go fs sh [] paths).1,
       (find_files_go fs sh [] paths).2.map (fun r => acc ++ r)) := by
  induction paths with
  | nil => intro acc; simp [find_files_go, Except.map]
  | cons path rest ih =>
    intro acc
    simp only [find_files_go]
    cases hm : fs.metadata path with
    | error e =>
      rw [ih acc]
    | ok m =>
      cases hf : m.is_file with
      | true =>
        simp only [hf, if_true]
        rw [ih (acc ++ [path]), ih ([] ++ [path])]
        cases (find_files_go fs sh [] rest).2 <;> simp [Except.map]
      | false =>
        simp only [hf, Bool.false_eq_true, if_false]
        cases hrd : fs.readDir path with
        | error e => simp [Except.map]
        | ok entries =>
          dsimp only
          rw [read_dir_loop_acc sh entries acc]
          cases hb : read_dir_loop sh [] entries with
          | error e => simp [Except.map]
          | ok r =>
            simp only [Except.map]
            rw [ih (acc ++ r), ih r]
            cases (find_files_go fs sh [] rest).2 <;> simp [Except.map]

theorem read_dir_loop_all_ok (sh : Bool) (oks : List DirEntry) :
    ∀ acc, read_dir_loop sh acc (oks.map Except.ok) =
      .ok (acc ++ (oks.filter
        (fun en => sh || !(starts_with_dot en.name))).map (fun en => en.path)) := by
  induction oks with
  | nil => intro acc; simp [read_dir_loop]
  | cons en rest ih =>
    intro acc
    cases hcond : (sh || !(starts_with_dot en.name)) with
    | true =>
      simp only [List.map_cons, read_dir_loop, hcond, if_true]
      rw [ih (acc ++ [en.path])]
      simp [List.filter_cons, hcond]
    | false =>
      simp only [List.map_cons, read_dir_loop, hcond, Bool.false_eq_true, if_false]
      rw [ih acc]
      simp [List.filter_cons, hcond]

theorem read_dir_loop_err (sh : Bool) (e : String)
    (post : List (Except String DirEntry)) :
    ∀ (pre : List DirEntry) (acc : List String),
      read_dir_loop sh acc (pre.map Except.ok ++ Except.error e :: post) =
        .error e := by
  intro pre
  induction pre with
  | nil => intro acc; simp [read_dir_loop]
  | cons en rest ih =>
    intro acc
    cases hcond : (sh || !(starts_with_dot en.name)) with
    | true =>
      simp only [List.map_cons, List.cons_append, read_dir_loop, hcond, if_true]
      exact ih _
    | false =>
      simp only [List.map_cons, List.cons_append, read_dir_loop, hcond,
        Bool.false_eq_true, if_false]
      exact ih _

theorem find_files_go_append_ok (fs : FS) (sh : Bool) (qs : List String) :
    ∀ (ps : List String) (acc errs rs : List String),
      find_files_go fs sh acc ps = (errs, .ok rs) →
      find_files_go fs sh acc (ps ++ qs) =
        (errs ++ (find_files_go fs sh rs qs).1, (find_files_go fs sh rs qs).2) := by
  intro ps
  induction ps with
  | nil =>
    intro acc errs rs h
    simp only [find_files_go] at h
    rw [Prod.mk.injEq] at h
    obtain ⟨h1, h2⟩ := h
    obtain rfl := h1.symm
    obtain rfl : acc = rs := by cases h2; rfl
    simp
  | cons path rest ih =>
    intro acc errs rs h
    simp only [find_files_go, List.cons_append] at h ⊢
    cases hm : fs.metadata path with
    | error e =>
      rw [hm] at h
      dsimp only at h ⊢
      rw [Prod.mk.injEq] at h
      obtain ⟨h1, h2⟩ := h
      obtain rfl := h1.symm
      simp only [List.append_eq]
      rw [ih acc (find_files_go fs sh acc rest).1 rs (by rw [← h2])]
      simp
    | ok m =>
      rw [hm] at h
      dsimp only at h ⊢
      by_cases hf : m.is_file = true
      · rw [if_pos hf] at h ⊢
        exact ih (acc ++ [path]) errs rs h
      · rw [if_neg hf] at h ⊢
        cases hrd : fs.readDir path with
        | error e =>
          rw [hrd] at h
          dsimp only at h
          rw [Prod.mk.injEq] at h
          exact absurd h.2 (by simp)
        | ok entries =>
          rw [hrd] at h
          dsimp only at h ⊢
          cases hb : read_dir_loop sh acc entries with
          | error e =>
            rw [hb] at h
            dsimp only at h
            rw [Prod.mk.injEq] at h
            exact absurd h.2 (by simp)
          | ok r =>
            rw [hb] at h
            dsimp only at h ⊢
            exact ih r errs rs h

theorem format_mode_data (m : Nat) :
    (format_mode m).data =
      [if m &&& 0o400 = 0 then '-' else 'r',
       if m &&& 0o200 = 0 then '-' else 'w',
       if m &&& 0o100 = 0 then '-' else 'x',
       if m &&& 0o40 = 0 then '-' else 'r',
       if m &&& 0o20 = 0 then '-' else 'w',
       if m &&& 0o10 = 0 then '-' else 'x',
       if m &&& 0o4 = 0 then '-' else 'r',
       if m &&& 0o2 = 0 then '-' else 'w',
       if m &&& 0o1 = 0 then '-' else 'x'] := rfl

theorem and_pow2_zero (m i : Nat) :
    (m &&& 2 ^ i = 0) ↔ m / 2 ^ i % 2 = 0 := by
  rw [Nat.and_two_pow, Nat.testBit_to_div_mod]
  rcases Nat.mod_two_eq_zero_or_one (m / 2 ^ i) with h | h <;>
    simp [h, Nat.pos_iff_ne_zero, pow_ne_zero]

theorem if_r_mask (P : Prop) [Decidable P] (acc k : Nat) :
    (if (if P then '-' else 'r') = '-' then acc else acc + k) =
      acc + (if P then 0 else k) := by
  by_cases h : P <;> simp [h]

theorem if_w_mask (P : Prop) [Decidable P] (acc k : Nat) :
    (if (if P then '-' else 'w') = '-' then acc else acc + k) =
      acc + (if P then 0 else k) := by
  by_cases h : P <;> simp [h]

theorem if_x_mask (P : Prop) [Decidable P] (acc k : Nat) :
    (if (if P then '-' else 'x') = '-' then acc else acc + k) =
      acc + (if P then 0 else k) := by
  by_cases h : P <;> simp [h]

theorem if_mod_mask (k c : Nat) :
    (if k % 2 = 0 then 0 else c) = c * (k % 2) := by
  rcases Nat.mod_two_eq_zero_or_one k with h | h <;> simp [h]

theorem format_row_eq (fs : FS) (p : String) :
    format_row fs p =
      match fs.metadata p with
      | .error e => .error e
      | .ok m =>
        match m.modified with
        | .error e => .error e
        | .ok t =>
          .ok [if path_is_dir fs p then "d" else "-", format_mode m.mode,
               toString m.nlink, (fs.userName m.uid).getD (toString m.uid),
               (fs.groupName m.gid).getD (toString m.gid), toString m.size,
               format_hm t, p] := by
  unfold format_row
  cases hm : fs.metadata p with
  | error e => rfl
  | ok m =>
    cases ht : m.modified with
    | error e =>
      dsimp only [bind, Except.bind]
      rw [ht]
    | ok t =>
      dsimp only [bind, Except.bind]
      rw [ht]
      rfl

theorem format_output_nil (fs : FS) : format_output fs [] = .ok [] := rfl

theorem format_output_cons (fs : FS) (p : String) (ps : List String) :
    format_output fs (p :: ps) =
      match format_row fs p with
      | .error e => .error e
      | .ok row =>
        match format_output fs ps with
        | .error e => .error e
        | .ok rows => .ok (row :: rows) := by
  unfold format_output
  rw [List.mapM_cons]
  cases hq : format_row fs p with
  | error e => rfl
  | ok row =>
    dsimp only [bind, Except.bind]
    cases ho : List.mapM (format_row fs) ps with
    | error e => rfl
    | ok rows => rfl

theorem format_row_ok (fs : FS) (p : String) (row : List String)
    (h : format_row fs p = .ok row) :
    ∃ m t, fs.metadata p = .ok m ∧ m.modified = .ok t ∧
      row = [if path_is_dir fs p then "d" else "-", format_mode m.mode,
             toString m.nlink, (fs.userName m.uid).getD (toString m.uid),
             (fs.groupName m.gid).getD (toString m.gid), toString m.size,
             format_hm t, p] := by
  rw [format_row_eq] at h
  cases hm : fs.metadata p with
  | error e => rw [hm] at h; cases h
  | ok m =>
    rw [hm] at h
    dsimp only at h
    cases ht : m.modified with
    | error e => rw [ht] at h; cases h
    | ok t =>
      rw [ht] at h
      refine ⟨m, t, rfl, ht, ?_⟩
      cases h
      rfl


/-! ### Claims -/

/-- C1, counterexample: the claim says a directory row's size column is an
empty string, but for the sample directory of size 4096 the code renders
size cell "4096" (and "4096" is not the empty string). -/
theorem claim1_counterexample :
    format_output fsEx ["tests/inputs"] =
      .ok [["d", "rwxr-xr-x", "2", "root", "wheel", "4096", "09:05",
            "tests/inputs"]] ∧
    ("4096" : String) ≠ "" :=
  ⟨by decide, by decide⟩

/-- C1, amended: in long-mode formatting the size cell (the sixth cell) of
every row — directory rows included — is the decimal byte count
`metadata.size()`; in particular for a regular file it is the file's byte
count. -/
theorem claim1_size_cell (fs : FS) :
    ∀ (paths : List String) (rows : List (List String)) (i : Nat) (p : String),
      format_output fs paths = .ok rows → paths.get? i = some p →
      ∃ m row, fs.metadata p = .ok m ∧ rows.get? i = some row ∧
        row.get? 5 = some (toString m.size) := by
  intro paths
  induction paths with
  | nil => intro rows i p h hp; simp at hp
  | cons q rest ih =>
    intro rows i p h hp
    rw [format_output_cons] at h
    cases hq : format_row fs q with
    | error e => rw [hq] at h; cases h
    | ok row =>
      rw [hq] at h
      dsimp only at h
      cases ho : format_output fs rest with
      | error e => rw [ho] at h; cases h
      | ok rows2 =>
        rw [ho] at h
        dsimp only at h
        obtain rfl : row :: rows2 = rows := by cases h; rfl
        cases i with
        | zero =>
          obtain rfl : q = p := by simpa using hp
          obtain ⟨m, t, hm, ht, hrow⟩ := format_row_ok fs q row hq
          exact ⟨m, row, hm, rfl, by rw [hrow]; rfl⟩
        | succ j =>
          obtain ⟨m, row2, hm, hr2, hc⟩ := ih rows2 j p ho (by simpa using hp)
          exact ⟨m, row2, hm, by simpa using hr2, hc⟩

/-- C1, witness: the amended claim applied to the sample filesystem at the
directory entry. -/
theorem claim1_witness :
    ∃ m row, fsEx.metadata "tests/inputs" = .ok m ∧
      [["d", "rwxr-xr-x", "2", "root", "wheel", "4096", "09:05",
        "tests/inputs"],
       ["-", "rw-r--r--", "1", "1000", "1000", "193", "12:34",
        "tests/inputs/bustle.txt"]].get? 0 = some row ∧
      row.get? 5 = some (toString m.size) :=
  claim1_size_cell fsEx ["tests/inputs", "tests/inputs/bustle.txt"]
    [["d", "rwxr-xr-x", "2", "root", "wheel", "4096", "09:05",
      "tests/inputs"],
     ["-", "rw-r--r--", "1", "1000", "1000", "193", "12:34",
      "tests/inputs/bustle.txt"]] 0 "tests/inputs" (by decide) (by decide)

/-- C2, counterexample: the claim says a per-child read error is silently
skipped and never aborts resolution; in the code `let entry = entry?;`
propagates the error, so on a directory whose first child read fails the
whole resolution returns that error and the readable second child is lost. -/
theorem claim2_counterexample :
    find_files fsChildErr ["d"] true = ([], .error "boom") ∧
    is_error (find_files fsChildErr ["d"] true).2 = true :=
  ⟨by decide, by decide⟩

/-- C2, amended: if reading any single child entry fails during enumeration
of a requested directory, the whole resolution aborts and returns that
child's error (children after the failing one are not enumerated and
remaining requested paths are not processed). -/
theorem claim2_child_error_aborts (fs : FS) (sh : Bool) (d : String)
    (m : Metadata) (pre : List DirEntry) (e : String)
    (post : List (Except String DirEntry)) (rest : List String)
    (h1 : fs.metadata d = .ok m) (h2 : m.is_file = false)
    (h3 : fs.readDir d = .ok (pre.map .ok ++ .error e :: post)) :
    find_files fs (d :: rest) sh = ([], .error e) := by
  unfold find_files
  simp only [find_files_go]
  rw [h1]
  dsimp only
  rw [if_neg (by simp [h2]), h3]
  dsimp only
  rw [read_dir_loop_err]

/-- C2, witness: the amended claim applied to the sample filesystem with a
failing first child. -/
theorem claim2_witness :
    find_files fsChildErr ["d"] false = ([], .error "boom") :=
  claim2_child_error_aborts fsChildErr false "d" mInputs []
    "boom" [.ok ⟨"a.txt", "d/a.txt"⟩] [] (by decide) (by decide) (by decide)

/-- C3: permission decoding is total and invertible on the low 9 bits:
`format_mode m` always has exactly 9 characters, each of them one of
r, w, x or the dash, and summing the position masks of the non-dash
positions recovers `m % 512`. -/
theorem claim3_format_mode_invertible (m : Nat) :
    (format_mode m).length = 9 ∧
    (∀ c ∈ (format_mode m).data, c = 'r' ∨ c = 'w' ∨ c = 'x' ∨ c = '-') ∧
    recover_mode (format_mode m) = m % 512 := by
  refine ⟨?_, ?_, ?_⟩
  · show (format_mode m).data.length = 9
    rw [format_mode_data]
    rfl
  · intro c hc
    rw [format_mode_data] at hc
    simp only [List.mem_cons, List.not_mem_nil, or_false] at hc
    rcases hc with rfl|rfl|rfl|rfl|rfl|rfl|rfl|rfl|rfl <;> split <;> simp
  · have h8 := and_pow2_zero m 8
    have h7 := and_pow2_zero m 7
    have h6 := and_pow2_zero m 6
    have h5 := and_pow2_zero m 5
    have h4 := and_pow2_zero m 4
    have h3 := and_pow2_zero m 3
    have h2 := and_pow2_zero m 2
    have h1 := and_pow2_zero m 1
    have h0 : (m &&& 1 = 0) ↔ m % 2 = 0 := by rw [Nat.and_one_is_mod]
    norm_num at h8 h7 h6 h5 h4 h3 h2 h1
    unfold recover_mode
    rw [format_mode_data]
    simp only [position_masks, List.zip_cons_cons, List.zip_nil_left,
      List.zip_nil_right, List.foldl_cons, List.foldl_nil]
    simp only [if_r_mask, if_w_mask, if_x_mask]
    simp only [h8, h7, h6, h5, h4, h3, h2, h1, h0]
    simp only [if_mod_mask]
    omega



/-- C3, witness: the invertibility statement evaluated at mode 0o751. -/
theorem claim3_witness :
    (format_mode 0o751).length = 9 ∧
    recover_mode (format_mode 0o751) = 0o751 % 512 :=
  ⟨(claim3_format_mode_invertible 0o751).1,
   (claim3_format_mode_invertible 0o751).2.2⟩

/-- C4: resolving a directory with show-hidden false keeps exactly the
children whose names do not start with the dot (excluding every hidden
child); with show-hidden true it keeps every child, none excluded for a
leading dot. -/
theorem claim4_hidden_filtering (fs : FS) (d : String) (m : Metadata)
    (oks : List DirEntry)
    (h1 : fs.metadata d = .ok m) (h2 : m.is_file = false)
    (h3 : fs.readDir d = .ok (oks.map .ok)) :
    find_files fs [d] false =
      ([], .ok ((oks.filter
        (fun en => !(starts_with_dot en.name))).map (fun en => en.path))) ∧
    find_files fs [d] true = ([], .ok (oks.map (fun en => en.path))) := by
  constructor
  · unfold find_files
    simp only [find_files_go]
    rw [h1]
    dsimp only
    rw [if_neg (by simp [h2]), h3]
    dsimp only
    rw [read_dir_loop_all_ok]
    dsimp only
    simp [find_files_go]
  · unfold find_files
    simp only [find_files_go]
    rw [h1]
    dsimp only
    rw [if_neg (by simp [h2]), h3]
    dsimp only
    rw [read_dir_loop_all_ok]
    dsimp only
    simp [find_files_go, List.filter_true]

/-- C4, witness: hidden filtering on the sample `tests/inputs` directory. -/
theorem claim4_witness :
    find_files fsEx ["tests/inputs"] false =
      ([], .ok ["tests/inputs/bustle.txt", "tests/inputs/dir"]) ∧
    find_files fsEx ["tests/inputs"] true =
      ([], .ok ["tests/inputs/.hidden", "tests/inputs/bustle.txt",
                "tests/inputs/dir"]) := by
  have h := claim4_hidden_filtering fsEx "tests/inputs" mInputs inputsChildren
    (by decide) (by decide) (by decide)
  exact ⟨h.1.trans (by decide), h.2.trans (by decide)⟩

/-- C5: a requested path whose metadata says regular file is appended to
the results unconditionally — for both values of the show-hidden flag and
with no condition on its name — and processing continues with the
remaining requested paths. -/
theorem claim5_file_unconditional (fs : FS) (sh : Bool) (f : String)
    (m : Metadata) (rest : List String)
    (h1 : fs.metadata f = .ok m) (h2 : m.is_file = true) :
    find_files fs (f :: rest) sh =
      ((find_files fs rest sh).1,
       (find_files fs rest sh).2.map (fun r => f :: r)) := by
  unfold find_files
  simp only [find_files_go]
  rw [h1]
  dsimp only
  rw [if_pos h2]
  rw [find_files_go_acc fs sh rest ([] ++ [f])]
  simp

/-- C5, witness: a hidden regular file requested directly is returned even
with show-hidden false. -/
theorem claim5_witness :
    find_files fsEx ["tests/inputs/.hidden"] false =
      ([], .ok ["tests/inputs/.hidden"]) := by
  have h := claim5_file_unconditional fsEx false "tests/inputs/.hidden"
    mHidden [] (by decide) (by decide)
  exact h.trans (by decide)

/-- C6: a requested path whose metadata retrieval fails contributes exactly
one stderr diagnostic of the form path, colon, space, error; it contributes
no entries, the remaining requested paths are processed unchanged, and the
failure does not turn the overall result into an error. -/
theorem claim6_per_path_diagnostic (fs : FS) (sh : Bool) (p e : String)
    (rest : List String) (h : fs.metadata p = .error e) :
    find_files fs (p :: rest) sh =
      ((p ++ ": " ++ e) :: (find_files fs rest sh).1,
       (find_files fs rest sh).2) := by
  unfold find_files
  simp only [find_files_go]
  rw [h]

/-- C6, witness: a missing path yields its diagnostic and the remaining
path is still resolved. -/
theorem claim6_witness :
    find_files fsEx ["missing", "tests/inputs/bustle.txt"] false =
      (["missing: No such file or directory (os error 2)"],
       .ok ["tests/inputs/bustle.txt"]) := by
  have h := claim6_per_path_diagnostic fsEx false "missing"
    "No such file or directory (os error 2)" ["tests/inputs/bustle.txt"]
    (by decide)
  exact h.trans (by decide)

/-- C7: when the top-level read of a requested directory itself fails, the
whole resolution returns that error — the directory is not skipped and the
remaining requested paths are not processed. -/
theorem claim7_toplevel_read_fatal (fs : FS) (sh : Bool) (d : String)
    (m : Metadata) (e : String) (rest : List String)
    (h1 : fs.metadata d = .ok m) (h2 : m.is_file = false)
    (h3 : fs.readDir d = .error e) :
    find_files fs (d :: rest) sh = ([], .error e) := by
  unfold find_files
  simp only [find_files_go]
  rw [h1]
  dsimp only
  rw [if_neg (by simp [h2]), h3]

/-- C7, witness: an unreadable directory aborts the whole resolution even
though another readable path was requested after it. -/
theorem claim7_witness :
    find_files fsLocked ["locked", "other"] false =
      ([], .error "Permission denied (os error 13)") :=
  claim7_toplevel_read_fatal fsLocked false "locked" mInputs
    "Permission denied (os error 13)" ["other"] (by decide) (by decide)
    (by decide)

/-- C8: if metadata retrieval (or the modified-time fetch) fails for any
entry handed to long-mode formatting, the whole format operation returns
an error and no table of rows is produced. -/
theorem claim8_format_failure_fatal (fs : FS) (p : String)
    (h : (∃ e, fs.metadata p = .error e) ∨
         ∃ m e, fs.metadata p = .ok m ∧ m.modified = .error e) :
    ∀ paths, p ∈ paths → is_error (format_output fs paths) = true := by
  have hrow : ∃ e, format_row fs p = .error e := by
    rw [format_row_eq]
    rcases h with ⟨e, he⟩ | ⟨m, e, hm, hmod⟩
    · rw [he]
      exact ⟨e, rfl⟩
    · rw [hm]
      dsimp only
      rw [hmod]
      exact ⟨e, rfl⟩
  obtain ⟨e, he⟩ := hrow
  intro paths
  induction paths with
  | nil => intro hp; cases hp
  | cons q rest ih =>
    intro hp
    rw [format_output_cons]
    rcases List.mem_cons.mp hp with rfl | hp2
    · rw [he]
      rfl
    · cases hq : format_row fs q with
      | error e2 => rfl
      | ok row =>
        dsimp only
        cases ho : format_output fs rest with
        | error e2 => rfl
        | ok rows =>
          have hcontra := ih hp2
          rw [ho] at hcontra
          simp [is_error] at hcontra

/-- C8, witness: a file whose modified-time fetch fails makes the whole
format operation an error. -/
theorem claim8_witness :
    is_error (format_output fsBadTime ["f.txt"]) = true :=
  claim8_format_failure_fatal fsBadTime "f.txt"
    (Or.inr ⟨{ ftype := .file, mode := 0o644, nlink := 1, uid := 1000,
               gid := 1000, size := 7, modified := .error "clock error" },
             "clock error", by decide, by decide⟩)
    ["f.txt"] (by decide)

/-- C9: encounter order is preserved — entries produced for earlier
requested paths precede those for later ones (resolution over an appended
list of requests is the concatenation), and within one directory the
returned children are an order-preserving sublist of the directory-read
order (no sorting). -/
theorem claim9_encounter_order (fs : FS) (sh : Bool) :
    (∀ ps qs e1 r1 e2 r2,
        find_files fs ps sh = (e1, .ok r1) →
        find_files fs qs sh = (e2, .ok r2) →
        find_files fs (ps ++ qs) sh = (e1 ++ e2, .ok (r1 ++ r2))) ∧
    (∀ (d : String) (m : Metadata) (oks : List DirEntry),
        fs.metadata d = .ok m → m.is_file = false →
        fs.readDir d = .ok (oks.map .ok) →
        ∃ rs, find_files fs [d] sh = ([], .ok rs) ∧
          rs.Sublist (oks.map (fun en => en.path))) := by
  constructor
  · intro ps qs e1 r1 e2 r2 h1 h2
    unfold find_files at h1 h2 ⊢
    rw [find_files_go_append_ok fs sh qs ps [] e1 r1 h1]
    rw [find_files_go_acc fs sh qs r1]
    rw [h2]
    simp [Except.map]
  · intro d m oks h1 h2 h3
    refine ⟨(oks.filter
      (fun en => sh || !(starts_with_dot en.name))).map (fun en => en.path),
      ?_, ?_⟩
    · unfold find_files
      simp only [find_files_go]
      rw [h1]
      dsimp only
      rw [if_neg (by simp [h2]), h3]
      dsimp only
      rw [read_dir_loop_all_ok]
      dsimp only
      simp [find_files_go]
    · exact List.Sublist.map _ (List.filter_sublist _)

/-- C9, witness: a file request before a directory request yields the
file's entry followed by the directory's children. -/
theorem claim9_witness :
    find_files fsEx (["tests/inputs/bustle.txt"] ++ ["tests/inputs"]) false =
      ([] ++ [], .ok (["tests/inputs/bustle.txt"] ++
        ["tests/inputs/bustle.txt", "tests/inputs/dir"])) :=
  (claim9_encounter_order fsEx false).1 ["tests/inputs/bustle.txt"]
    ["tests/inputs"] [] ["tests/inputs/bustle.txt"] []
    ["tests/inputs/bustle.txt", "tests/inputs/dir"] (by decide) (by decide)

/-- C10: resolving an empty list of requested paths succeeds with an empty
result and no diagnostics, for every filesystem and either flag value —
the result does not depend on the filesystem at all. -/
theorem claim10_empty_paths (fs fs2 : FS) (sh sh2 : Bool) :
    find_files fs [] sh = ([], .ok []) ∧
    find_files fs [] sh = find_files fs2 [] sh2 :=
  ⟨rfl, rfl⟩

end Lsr
